import Mathlib

/-!
Verification of `tools.py` from the `multitask` repository: persistence of
hyperparameters and training logs, `mkdir -p` semantics, and batch-job
script generation.  Python dicts are modelled as association lists with
unique keys, the filesystem as an association list from paths to entries,
and the caller-visible mutation discipline of `save_hparams` with an
explicit heap of dict objects.
-/

set_option maxRecDepth 100000

namespace Multitask

/-! ### Strings -/

/-- `sub` occurs contiguously inside `s`. -/
def hasSubstr (s sub : String) : Prop := List.IsInfix sub.data s.data

instance (s sub : String) : Decidable (hasSubstr s sub) := by
  unfold hasSubstr; infer_instance

theorem strData_append (s t : String) : (s ++ t).data = s.data ++ t.data := by
  cases s; cases t; rfl

theorem strExt {s t : String} (h : s.data = t.data) : s = t := by
  cases s; cases t; exact congrArg String.mk h

theorem hasSubstr_of_eq (s a sub b : String) (h : s = a ++ sub ++ b) :
    hasSubstr s sub := by
  subst h
  exact ⟨a.data, b.data, by simp [strData_append]⟩

theorem hasSubstr_append_left (a : String) {s sub : String} (h : hasSubstr s sub) :
    hasSubstr (a ++ s) sub := by
  unfold hasSubstr at *
  rw [strData_append]
  exact h.trans (List.suffix_append a.data s.data).isInfix

/-- Python 2 `s[0:n]` on a byte string: the first `n` characters. -/
def strTake (s : String) (n : Nat) : String := ⟨s.data.take n⟩

/-- `b.startswith('/')`. -/
def startsWithSlash (s : String) : Bool :=
  match s.data with
  | '/' :: _ => true
  | _ => false

/-- `a.endswith('/')`. -/
def endsWithSlash (s : String) : Bool :=
  match s.data.getLast? with
  | some '/' => true
  | _ => false

/-- `os.path.join(a, b)` for POSIX paths (two arguments). -/
def pathJoin (a b : String) : String :=
  if startsWithSlash b then b
  else if a = "" then b
  else if endsWithSlash a then a ++ b
  else a ++ "/" ++ b

/-! ### Values

JSON-representable values (what `json.dump`/`json.load` round-trip) and
the values a hyperparameter dict may hold: JSON values plus a
`np.random.RandomState` handle carrying the seed it was constructed with. -/

inductive JVal where
  | jnum : Int → JVal
  | jstr : String → JVal
  | jbool : Bool → JVal
  | jnull : JVal
deriving DecidableEq

inductive HVal where
  | json : JVal → HVal
  | rng : Int → HVal
deriving DecidableEq

/-- A Python dict from option names to values (insertion-ordered,
unique keys). -/
abbrev HParams := List (String × HVal)

/-- `d[k]` as an option: first binding of `k`. -/
def dget (d : HParams) (k : String) : Option HVal :=
  match d with
  | [] => none
  | (k', v) :: rest => if k' = k then some v else dget rest k

/-- `d.pop(k)` : the removed value and the remaining dict, or `none`
(Python raises `KeyError`) when `k` is absent. -/
def dpop (d : HParams) (k : String) : Option (HVal × HParams) :=
  match d with
  | [] => none
  | (k', v) :: rest =>
    if k' = k then some (v, rest)
    else match dpop rest k with
      | none => none
      | some (v', rest') => some (v', (k', v) :: rest')

/-- `d[k] = v` : replace the binding in place if present, else append. -/
def dset (d : HParams) (k : String) (v : HVal) : HParams :=
  match d with
  | [] => [(k, v)]
  | (k', v') :: rest =>
    if k' = k then (k, v) :: rest else (k', v') :: dset rest k v

/-- `json.dump` of a dict: every value must be JSON-serializable
(a `RandomState` is not; Python raises `TypeError`). -/
def jdump (d : HParams) : Option (List (String × JVal)) :=
  match d with
  | [] => some []
  | (k, HVal.json j) :: rest =>
    match jdump rest with
    | none => none
    | some js => some ((k, j) :: js)
  | (_, HVal.rng _) :: _ => none

/-- `json.load` of a dict file, as a Python dict of values. -/
def jload (j : List (String × JVal)) : HParams :=
  j.map (fun kv => (kv.1, HVal.json kv.2))

/-! ### Filesystem

Paths are atomic keys; an entry is a directory, a JSON file holding a
dict, a pickle file holding an opaque log blob, or a text file. -/

/-- An opaque pickled training-log blob (passed through unchanged). -/
abbrev LogVal := Nat

inductive FData where
  | dir : FData
  | jsonFile : List (String × JVal) → FData
  | pklFile : LogVal → FData
  | textFile : String → FData
deriving DecidableEq

abbrev FS := List (String × FData)

def fsLookup (fs : FS) (p : String) : Option FData :=
  match fs with
  | [] => none
  | (p', d) :: rest => if p' = p then some d else fsLookup rest p

/-- `os.path.isfile`: an existing entry that is not a directory. -/
def isFile (fs : FS) (p : String) : Bool :=
  match fsLookup fs p with
  | some FData.dir => false
  | some _ => true
  | none => false

/-- `os.path.isdir`. -/
def isDir (fs : FS) (p : String) : Bool :=
  match fsLookup fs p with
  | some FData.dir => true
  | _ => false

/-- Errors surfaced by the modelled Python code. -/
inductive PyErr where
  | keyError
  | typeError
  | isADirectoryError
  | unpicklingError
  | eexist
deriving DecidableEq

/-- Replace the first binding of `p`, or append a new one. -/
def fsUpdate (fs : FS) (p : String) (d : FData) : FS :=
  match fs with
  | [] => [(p, d)]
  | (p', d') :: rest =>
    if p' = p then (p, d) :: rest else (p', d') :: fsUpdate rest p d

/-- `open(p, 'w')` + write: fails when `p` is an existing directory,
otherwise creates or overwrites the file. -/
def fsWrite (fs : FS) (p : String) (d : FData) : Except PyErr FS :=
  match fsLookup fs p with
  | some FData.dir => Except.error PyErr.isADirectoryError
  | _ => Except.ok (fsUpdate fs p d)

/-! ### Experiment artifact store (`tools.py`) -/

/-- `load_log(save_name)`: `data/log_<name>.pkl`, `None` when absent. -/
def load_log (fs : FS) (save_name : String) : Except PyErr (Option LogVal) :=
  let fname := pathJoin "data" ("log_" ++ save_name ++ ".pkl")
  if isFile fs fname then
    match fsLookup fs fname with
    | some (FData.pklFile l) => Except.ok (some l)
    | _ => Except.error PyErr.unpicklingError
  else
    Except.ok none

/-- `save_log(log, save_name)`. -/
def save_log (fs : FS) (log : LogVal) (save_name : String) : Except PyErr FS :=
  fsWrite fs (pathJoin "data" ("log_" ++ save_name ++ ".pkl")) (FData.pklFile log)

/-- `load_hparams(save_dir)`: `None` when `hparams.json` is absent,
otherwise the stored dict with `hparams['rng'] =
np.random.RandomState(hparams['seed']+1000)` applied. -/
def load_hparams (fs : FS) (save_dir : String) : Except PyErr (Option HParams) :=
  let fname := pathJoin save_dir "hparams.json"
  if isFile fs fname then
    match fsLookup fs fname with
    | some (FData.jsonFile j) =>
      let hparams := jload j
      match dget hparams "seed" with
      | some (HVal.json (JVal.jnum s)) =>
        Except.ok (some (dset hparams "rng" (HVal.rng (s + 1000))))
      | some _ => Except.error PyErr.typeError
      | none => Except.error PyErr.keyError
    | _ => Except.error PyErr.unpicklingError
  else
    Except.ok none

/-! ### Heap of dict objects

`save_hparams` copies the caller's dict and pops the copy; to state that
the caller's object is untouched we track dict objects in a heap indexed
by references. -/

structure Heap where
  objs : List HParams
deriving DecidableEq

def Heap.get (h : Heap) (r : Nat) : HParams := (h.objs.get? r).getD []

def Heap.alloc (h : Heap) (d : HParams) : Heap × Nat :=
  (⟨h.objs ++ [d]⟩, h.objs.length)

def Heap.set (h : Heap) (r : Nat) (d : HParams) : Heap := ⟨h.objs.set r d⟩

/-- `save_hparams(hparams, save_dir)` where `hparams` is the dict at
reference `r` in heap `h`: copy the dict, pop `'rng'` from the copy
(`KeyError` when absent), `json.dump` the copy to
`<save_dir>/hparams.json`.  Returns the final heap together with the
result (the new filesystem, or the raised error). -/
def save_hparams (h : Heap) (r : Nat) (fs : FS) (save_dir : String) :
    Heap × Except PyErr FS :=
  let h1 := (h.alloc (h.get r)).1
  let rc := (h.alloc (h.get r)).2
  match dpop (h1.get rc) "rng" with
  | none => (h1, Except.error PyErr.keyError)
  | some (_, rest) =>
    let h2 := h1.set rc rest
    match jdump (h2.get rc) with
    | none => (h2, Except.error PyErr.typeError)
    | some j =>
      match fsWrite fs (pathJoin save_dir "hparams.json") (FData.jsonFile j) with
      | Except.error e => (h2, Except.error e)
      | Except.ok fs1 => (h2, Except.ok fs1)

/-! ### `mkdir_p` -/

/-- `os.makedirs(path)`: raises `EEXIST` when the path already exists
(directory or not), otherwise creates the directory. -/
def makedirs (fs : FS) (p : String) : Except PyErr FS :=
  match fsLookup fs p with
  | some _ => Except.error PyErr.eexist
  | none => Except.ok (fs ++ [(p, FData.dir)])

/-- `mkdir_p(path)`: swallow `EEXIST` when the path is a directory,
re-raise anything else. -/
def mkdir_p (fs : FS) (p : String) : Except PyErr FS :=
  match makedirs fs p with
  | Except.ok fs' => Except.ok fs'
  | Except.error e =>
    if e = PyErr.eexist && isDir fs p then Except.ok fs else Except.error e

/-! ### `write_jobfile`

The two script templates, written out in full as the two branches of the
source do. -/

/-- The template written when `gpus == 0`. -/
def cpuScript (cmd jobname scratchpath : String) (nodes ppn mem nhours : Int) :
    String :=
  let logname := pathJoin "log" jobname
  "#! /bin/bash\n"
  ++ "\n"
  ++ "#SBATCH --nodes=" ++ toString nodes ++ "\n"
  ++ "#SBATCH --ntasks-per-node=1\n"
  ++ "#SBATCH --cpus-per-task=" ++ toString ppn ++ "\n"
  ++ "#SBATCH --mem=" ++ toString mem ++ "GB\n"
  ++ "#SBATCH --time=" ++ toString nhours ++ ":00:00\n"
  ++ "#SBATCH --job-name=" ++ strTake jobname 16 ++ "\n"
  ++ "#SBATCH --output=" ++ scratchpath ++ "log/" ++ strTake jobname 16 ++ ".o\n"
  ++ "\n"
  ++ "cd " ++ scratchpath ++ "\n"
  ++ "pwd > " ++ logname ++ ".log\n"
  ++ "date >> " ++ logname ++ ".log\n"
  ++ "which python >> " ++ logname ++ ".log\n"
  ++ cmd ++ " >> " ++ logname ++ ".log 2>&1\n"
  ++ "\n"
  ++ "exit 0;\n"

/-- The template written when `gpus != 0`: two extra directives,
`--partition=gpu` and the fixed `--gres=gpu:1`. -/
def gpuScript (cmd jobname scratchpath : String) (nodes ppn mem nhours : Int) :
    String :=
  let logname := pathJoin "log" jobname
  "#! /bin/bash\n"
  ++ "\n"
  ++ "#SBATCH --nodes=" ++ toString nodes ++ "\n"
  ++ "#SBATCH --ntasks-per-node=1\n"
  ++ "#SBATCH --cpus-per-task=" ++ toString ppn ++ "\n"
  ++ "#SBATCH --mem=" ++ toString mem ++ "GB\n"
  ++ "#SBATCH --partition=gpu\n"
  ++ "#SBATCH --gres=gpu:1\n"
  ++ "#SBATCH --time=" ++ toString nhours ++ ":00:00\n"
  ++ "#SBATCH --job-name=" ++ strTake jobname 16 ++ "\n"
  ++ "#SBATCH --output=" ++ scratchpath ++ "log/" ++ strTake jobname 16 ++ ".o\n"
  ++ "\n"
  ++ "cd " ++ scratchpath ++ "\n"
  ++ "pwd > " ++ logname ++ ".log\n"
  ++ "date >> " ++ logname ++ ".log\n"
  ++ "which python >> " ++ logname ++ ".log\n"
  ++ cmd ++ " >> " ++ logname ++ ".log 2>&1\n"
  ++ "\n"
  ++ "exit 0;\n"

/-- The content `write_jobfile` writes: dispatch on `gpus == 0`. -/
def scriptContent (cmd jobname scratchpath : String)
    (nodes ppn gpus mem nhours : Int) : String :=
  if gpus = 0 then cpuScript cmd jobname scratchpath nodes ppn mem nhours
  else gpuScript cmd jobname scratchpath nodes ppn mem nhours

/-- `write_jobfile(cmd, jobname, sbatchpath, scratchpath, nodes, ppn,
gpus, mem, nhours)`: ensure the script directory, write the script to
`<sbatchpath>/<jobname>.s`, return the new filesystem and that path. -/
def write_jobfile (fs : FS) (cmd jobname sbatchpath scratchpath : String)
    (nodes ppn gpus mem nhours : Int) : Except PyErr (FS × String) :=
  match mkdir_p fs sbatchpath with
  | Except.error e => Except.error e
  | Except.ok fs1 =>
    let jobfile := pathJoin sbatchpath (jobname ++ ".s")
    match fsWrite fs1 jobfile
        (FData.textFile (scriptContent cmd jobname scratchpath nodes ppn gpus mem nhours)) with
    | Except.error e => Except.error e
    | Except.ok fs2 => Except.ok (fs2, jobfile)

/-! ### Dict lemmas -/

theorem dget_dset_self (d : HParams) (k : String) (v : HVal) :
    dget (dset d k v) k = some v := by
  induction d with
  | nil => simp [dset, dget]
  | cons hd tl ih =>
    obtain ⟨k1, v1⟩ := hd
    by_cases h : k1 = k <;> simp [dset, dget, h, ih]

theorem dget_dset_ne (d : HParams) (k k2 : String) (v : HVal) (h : k2 ≠ k) :
    dget (dset d k v) k2 = dget d k2 := by
  have hk : ¬ (k = k2) := fun hh => h hh.symm
  induction d with
  | nil =>
    simp only [dset, dget]
    rw [if_neg hk]
  | cons hd tl ih =>
    obtain ⟨k1, v1⟩ := hd
    by_cases h1 : k1 = k
    · subst h1
      simp only [dset, if_pos rfl, dget]
      rw [if_neg hk, if_neg hk]
    · simp only [dset, if_neg h1, dget]
      by_cases h2 : k1 = k2 <;> simp [h2, ih]

theorem dget_eq_none_of_forall (d : HParams) (k : String)
    (h : ∀ e ∈ d, e.1 ≠ k) : dget d k = none := by
  induction d with
  | nil => rfl
  | cons hd tl ih =>
    obtain ⟨k1, v1⟩ := hd
    have hk1 : k1 ≠ k := h (k1, v1) (List.mem_cons_self _ _)
    simp only [dget, if_neg hk1]
    exact ih (fun e he => h e (List.mem_cons_of_mem _ he))

theorem dget_append (a b : HParams) (k : String) :
    dget (a ++ b) k
      = match dget a k with
        | some v => some v
        | none => dget b k := by
  induction a with
  | nil => simp [dget]
  | cons hd tl ih =>
    obtain ⟨k1, v1⟩ := hd
    by_cases h : k1 = k <;> simp [dget, h, ih]

theorem dpop_eq_none_of_dget (d : HParams) (k : String) (h : dget d k = none) :
    dpop d k = none := by
  induction d with
  | nil => rfl
  | cons hd tl ih =>
    obtain ⟨k1, v1⟩ := hd
    by_cases h1 : k1 = k
    · simp [dget, h1] at h
    · simp only [dget, if_neg h1] at h
      simp [dpop, h1, ih h]

theorem dpop_of_dget (d : HParams) (k : String) (v : HVal)
    (h : dget d k = some v) : ∃ rest, dpop d k = some (v, rest) := by
  induction d with
  | nil => simp [dget] at h
  | cons hd tl ih =>
    obtain ⟨k1, v1⟩ := hd
    by_cases h1 : k1 = k
    · simp only [dget, if_pos h1] at h
      injection h with h
      subst h
      exact ⟨tl, by simp [dpop, h1]⟩
    · simp only [dget, if_neg h1] at h
      obtain ⟨rest, hrest⟩ := ih h
      exact ⟨(k1, v1) :: rest, by simp [dpop, h1, hrest]⟩

theorem dpop_eq_some (d : HParams) (k : String) (v : HVal) (rest : HParams)
    (h : dpop d k = some (v, rest)) :
    ∃ d1 d2, d = d1 ++ (k, v) :: d2 ∧ rest = d1 ++ d2 ∧ ∀ e ∈ d1, e.1 ≠ k := by
  induction d generalizing rest with
  | nil => simp [dpop] at h
  | cons hd tl ih =>
    obtain ⟨k1, v1⟩ := hd
    by_cases h1 : k1 = k
    · subst h1
      simp only [dpop, eq_self_iff_true, if_true, Option.some.injEq,
        Prod.mk.injEq] at h
      obtain ⟨rfl, rfl⟩ := h
      exact ⟨[], tl, by simp, by simp, by simp⟩
    · simp only [dpop, if_neg h1] at h
      cases hrec : dpop tl k with
      | none => rw [hrec] at h; simp at h
      | some pr =>
        obtain ⟨v2, rest2⟩ := pr
        rw [hrec] at h
        simp only [Option.some.injEq, Prod.mk.injEq] at h
        obtain ⟨hv, hrest⟩ := h
        subst hv
        subst hrest
        obtain ⟨d1, d2, hd1, hd2, hne⟩ := ih rest2 hrec
        refine ⟨(k1, v1) :: d1, d2, by simp [hd1], by simp [hd2], ?_⟩
        intro e he
        rcases List.mem_cons.mp he with h | h
        · subst h; exact h1
        · exact hne e h

theorem dget_dpop_ne (d : HParams) (k : String) (v : HVal) (rest : HParams)
    (h : dpop d k = some (v, rest)) (k2 : String) (hk2 : k2 ≠ k) :
    dget rest k2 = dget d k2 := by
  obtain ⟨d1, d2, hd, hr, _⟩ := dpop_eq_some d k v rest h
  subst hd
  subst hr
  rw [dget_append, dget_append]
  cases dget d1 k2 with
  | some v2 => rfl
  | none =>
    show dget d2 k2 = dget ((k, v) :: d2) k2
    simp only [dget]
    rw [if_neg (fun hh => hk2 hh.symm)]

/-! ### `jdump`/`jload` lemmas -/

theorem jdump_total (d : HParams) (h : ∀ e ∈ d, ∃ j, e.2 = HVal.json j) :
    ∃ js, jdump d = some js := by
  induction d with
  | nil => exact ⟨[], rfl⟩
  | cons hd tl ih =>
    obtain ⟨k1, v1⟩ := hd
    obtain ⟨j, hj⟩ := h (k1, v1) (List.mem_cons_self _ _)
    obtain ⟨js, hjs⟩ := ih (fun e he => h e (List.mem_cons_of_mem _ he))
    subst hj
    exact ⟨(k1, j) :: js, by simp [jdump, hjs]⟩

theorem jload_jdump (d : HParams) (js : List (String × JVal))
    (h : jdump d = some js) : jload js = d := by
  induction d generalizing js with
  | nil =>
    simp only [jdump, Option.some.injEq] at h
    simp [← h, jload]
  | cons hd tl ih =>
    obtain ⟨k1, v1⟩ := hd
    cases v1 with
    | rng s => simp [jdump] at h
    | json j =>
      cases hrec : jdump tl with
      | none => simp [jdump, hrec] at h
      | some js2 =>
        simp only [jdump, hrec, Option.some.injEq] at h
        simp [← h, jload, ← ih js2 hrec, jload]

/-! ### Filesystem lemmas -/

theorem fsLookup_fsUpdate_self (fs : FS) (p : String) (d : FData) :
    fsLookup (fsUpdate fs p d) p = some d := by
  induction fs with
  | nil => simp [fsUpdate, fsLookup]
  | cons hd tl ih =>
    obtain ⟨p1, d1⟩ := hd
    by_cases h : p1 = p <;> simp [fsUpdate, fsLookup, h, ih]

theorem fsWrite_ok (fs : FS) (p : String) (d : FData)
    (h : fsLookup fs p ≠ some FData.dir) :
    fsWrite fs p d = Except.ok (fsUpdate fs p d) := by
  unfold fsWrite
  cases hfs : fsLookup fs p with
  | none => rfl
  | some x => cases x with
    | dir => exact absurd hfs h
    | jsonFile j => rfl
    | pklFile l => rfl
    | textFile t => rfl

theorem fsLookup_none_iff (fs : FS) (p : String) :
    fsLookup fs p = none ↔ ∀ e ∈ fs, e.1 ≠ p := by
  induction fs with
  | nil => simp [fsLookup]
  | cons hd tl ih =>
    obtain ⟨p1, d1⟩ := hd
    by_cases h : p1 = p <;> simp [fsLookup, h, ih]

/-! ### Heap lemmas -/

theorem Heap.get_alloc_new (h : Heap) (d : HParams) :
    (h.alloc d).1.get (h.alloc d).2 = d := by
  simp [Heap.alloc, Heap.get, List.getElem?_concat_length]

theorem Heap.get_alloc_old (h : Heap) (d : HParams) (r : Nat)
    (hr : r < h.objs.length) : (h.alloc d).1.get r = h.get r := by
  simp [Heap.alloc, Heap.get, List.getElem?_append_left hr]

theorem Heap.get_set_ne (h : Heap) (r1 r2 : Nat) (d : HParams)
    (hne : r2 ≠ r1) : (h.set r2 d).get r1 = h.get r1 := by
  simp [Heap.set, Heap.get, List.getElem?_set_ne hne]

theorem Heap.get_set_alloc (h : Heap) (d rest : HParams) :
    ((h.alloc d).1.set (h.alloc d).2 rest).get (h.alloc d).2 = rest := by
  have hlt : h.objs.length < (h.objs ++ [d]).length := by simp
  simp [Heap.alloc, Heap.set, Heap.get, List.getElem?_set_eq_of_lt rest hlt]

/-- The heap component of `save_hparams` never changes the caller's dict:
only the freshly allocated copy is written to. -/
theorem save_hparams_heap_frame (h : Heap) (r : Nat) (fs : FS) (dir : String)
    (hr : r < h.objs.length) :
    (save_hparams h r fs dir).1.get r = h.get r := by
  have hold : (h.alloc (h.get r)).1.get r = h.get r :=
    Heap.get_alloc_old h (h.get r) r hr
  have hne : (h.alloc (h.get r)).2 ≠ r := by
    simp only [Heap.alloc]
    exact (Nat.ne_of_lt hr).symm
  have h2r : ∀ rest : HParams,
      ((h.alloc (h.get r)).1.set (h.alloc (h.get r)).2 rest).get r = h.get r :=
    fun rest => by rw [Heap.get_set_ne _ r _ rest hne, hold]
  simp only [save_hparams, Heap.get_alloc_new]
  cases hpop : dpop (h.get r) "rng" with
  | none => exact hold
  | some pr =>
    obtain ⟨rv, rest⟩ := pr
    simp only [Heap.get_set_alloc]
    cases jdump rest with
    | none => exact h2r rest
    | some j =>
      cases hfw : fsWrite fs (pathJoin dir "hparams.json") (FData.jsonFile j) with
      | error e => simp only [hfw]; exact h2r rest
      | ok fs1 => simp only [hfw]; exact h2r rest

/-! ### Claim C2: absence of the log or hparams file is a `None`, not an
exception -/

/-- C2: when the log file `data/log_<name>.pkl` does not exist,
`load_log` returns `None` and raises nothing; when `<dir>/hparams.json`
does not exist, `load_hparams` returns `None` and raises nothing. -/
theorem load_absent (fs : FS) (name dir : String) :
    (fsLookup fs (pathJoin "data" ("log_" ++ name ++ ".pkl")) = none →
      load_log fs name = Except.ok none)
    ∧ (fsLookup fs (pathJoin dir "hparams.json") = none →
      load_hparams fs dir = Except.ok none) := by
  constructor
  · intro hl
    have hf : isFile fs (pathJoin "data" ("log_" ++ name ++ ".pkl")) = false := by
      simp [isFile, hl]
    simp [load_log, hf]
  · intro hl
    have hf : isFile fs (pathJoin dir "hparams.json") = false := by
      simp [isFile, hl]
    simp [load_hparams, hf]

theorem load_absent_witness :
    load_log [] "nonexistent" = Except.ok none
    ∧ load_hparams [] "sd" = Except.ok none :=
  ⟨(load_absent [] "nonexistent" "sd").1 rfl,
   (load_absent [] "nonexistent" "sd").2 rfl⟩

/-! ### Claim C3: `save_hparams` does not mutate the caller's dict -/

/-- C3: for a dict containing the generator entry `'rng'`, `save_hparams`
leaves the caller's dict object exactly as it was; in particular `'rng'`
is still present afterwards. -/
theorem save_hparams_no_mutation (h : Heap) (r : Nat) (fs : FS) (dir : String)
    (rv : HVal) (hr : r < h.objs.length)
    (hrng : dget (h.get r) "rng" = some rv) :
    (save_hparams h r fs dir).1.get r = h.get r
    ∧ dget ((save_hparams h r fs dir).1.get r) "rng" = some rv := by
  have hf := save_hparams_heap_frame h r fs dir hr
  exact ⟨hf, by rw [hf]; exact hrng⟩

theorem save_hparams_no_mutation_witness :
    (save_hparams ⟨[[("seed", HVal.json (JVal.jnum 3)), ("rng", HVal.rng 3)]]⟩
        0 [] "sd").1.get 0
      = [("seed", HVal.json (JVal.jnum 3)), ("rng", HVal.rng 3)]
    ∧ dget ((save_hparams ⟨[[("seed", HVal.json (JVal.jnum 3)), ("rng", HVal.rng 3)]]⟩
        0 [] "sd").1.get 0) "rng" = some (HVal.rng 3) :=
  save_hparams_no_mutation
    ⟨[[("seed", HVal.json (JVal.jnum 3)), ("rng", HVal.rng 3)]]⟩
    0 [] "sd" (HVal.rng 3) (by decide) rfl

/-! ### Claim C9: missing `'rng'` raises `KeyError` -/

/-- C9: when the dict has no `'rng'` key, `save_hparams` raises
`KeyError` (`pop('rng')` is unconditional). -/
theorem save_hparams_missing_rng (h : Heap) (r : Nat) (fs : FS) (dir : String)
    (hrng : dget (h.get r) "rng" = none) :
    (save_hparams h r fs dir).2 = Except.error PyErr.keyError := by
  have hpop : dpop (h.get r) "rng" = none := dpop_eq_none_of_dget _ _ hrng
  simp only [save_hparams, Heap.get_alloc_new, hpop]

theorem save_hparams_missing_rng_witness :
    (save_hparams ⟨[[("seed", HVal.json (JVal.jnum 3))]]⟩ 0 [] "sd").2
      = Except.error PyErr.keyError :=
  save_hparams_missing_rng ⟨[[("seed", HVal.json (JVal.jnum 3))]]⟩ 0 [] "sd" rfl

/-! ### Claim C8: `mkdir_p` is idempotent -/

theorem fsLookup_append_self (fs : FS) (p : String) (d : FData)
    (h : fsLookup fs p = none) : fsLookup (fs ++ [(p, d)]) p = some d := by
  induction fs with
  | nil => simp [fsLookup]
  | cons hd tl ih =>
    obtain ⟨p1, d1⟩ := hd
    by_cases hp : p1 = p
    · simp [fsLookup, hp] at h
    · simp only [fsLookup, if_neg hp] at h
      simp only [List.cons_append, fsLookup, if_neg hp]
      exact ih h

theorem fsCount_eq_one (fs : FS) (p : String) (d : FData)
    (hnodup : (fs.map Prod.fst).Nodup) (h : fsLookup fs p = some d) :
    (fs.filter (fun e => e.1 == p)).length = 1 := by
  induction fs generalizing d with
  | nil => simp [fsLookup] at h
  | cons hd tl ih =>
    obtain ⟨p1, d1⟩ := hd
    rw [List.map_cons, List.nodup_cons] at hnodup
    by_cases hp : p1 = p
    · subst hp
      have htl : tl.filter (fun e => e.1 == p1) = [] := by
        rw [List.filter_eq_nil_iff]
        intro e he
        simp only [beq_iff_eq]
        intro heq
        have hmem : e.1 ∈ List.map Prod.fst tl := List.mem_map_of_mem Prod.fst he
        rw [heq] at hmem
        exact hnodup.1 hmem
      simp [List.filter_cons, htl]
    · have h2 : fsLookup tl p = some d := by
        simpa [fsLookup, hp] using h
      have hne : ((p1, d1).1 == p) = false := by simp [hp]
      simp [List.filter_cons, hne, ih d hnodup.2 h2]

theorem isDir_eq_false_of_nondir (fs : FS) (p : String) (d : FData)
    (hfs : fsLookup fs p = some d) (hnd : d ≠ FData.dir) :
    isDir fs p = false := by
  cases d with
  | dir => exact absurd rfl hnd
  | jsonFile j => simp [isDir, hfs]
  | pklFile l => simp [isDir, hfs]
  | textFile t => simp [isDir, hfs]

theorem mkdir_p_error_of_nondir (fs : FS) (p : String) (d : FData)
    (hfs : fsLookup fs p = some d) (hnd : d ≠ FData.dir) :
    mkdir_p fs p = Except.error PyErr.eexist := by
  have hmk : makedirs fs p = Except.error PyErr.eexist := by
    simp [makedirs, hfs]
  simp [mkdir_p, hmk, isDir_eq_false_of_nondir fs p d hfs hnd]

/-- C8: `mkdir_p` is idempotent — a successful call leaves a directory
at the path, exactly one entry lives there, and a second call succeeds
without changing anything; it fails exactly when the existing entry at
the path is not a directory. -/
theorem mkdir_p_idempotent (fs : FS) (p : String)
    (hnodup : (fs.map Prod.fst).Nodup) :
    (∀ fs1, mkdir_p fs p = Except.ok fs1 →
      mkdir_p fs1 p = Except.ok fs1
      ∧ isDir fs1 p = true
      ∧ (fs1.filter (fun e => e.1 == p)).length = 1)
    ∧ ((∃ e, mkdir_p fs p = Except.error e)
      ↔ ∃ d, fsLookup fs p = some d ∧ d ≠ FData.dir) := by
  cases hfs : fsLookup fs p with
  | none =>
    have hmk : makedirs fs p = Except.ok (fs ++ [(p, FData.dir)]) := by
      simp [makedirs, hfs]
    have hm : mkdir_p fs p = Except.ok (fs ++ [(p, FData.dir)]) := by
      simp [mkdir_p, hmk]
    constructor
    · intro fs1 hok
      rw [hm] at hok
      injection hok with hok
      subst hok
      have hl1 : fsLookup (fs ++ [(p, FData.dir)]) p = some FData.dir :=
        fsLookup_append_self fs p FData.dir hfs
      have hdir : isDir (fs ++ [(p, FData.dir)]) p = true := by simp [isDir, hl1]
      refine ⟨?_, hdir, ?_⟩
      · have hmk1 : makedirs (fs ++ [(p, FData.dir)]) p = Except.error PyErr.eexist := by
          simp [makedirs, hl1]
        simp [mkdir_p, hmk1, hdir]
      · have hnil : fs.filter (fun e => e.1 == p) = [] := by
          rw [List.filter_eq_nil_iff]
          intro e he
          simp only [beq_iff_eq]
          exact (fsLookup_none_iff fs p).mp hfs e he
        simp [List.filter_append, hnil, List.filter_cons]
    · constructor
      · rintro ⟨e, he⟩
        rw [hm] at he
        exact absurd he (by simp)
      · rintro ⟨d, hd, _⟩
        exact absurd hd (by simp)
  | some d0 =>
    cases d0 with
    | dir =>
      have hmk : makedirs fs p = Except.error PyErr.eexist := by
        simp [makedirs, hfs]
      have hdir : isDir fs p = true := by simp [isDir, hfs]
      have hm : mkdir_p fs p = Except.ok fs := by simp [mkdir_p, hmk, hdir]
      constructor
      · intro fs1 hok
        rw [hm] at hok
        injection hok with hok
        subst hok
        exact ⟨hm, hdir, fsCount_eq_one fs p FData.dir hnodup hfs⟩
      · constructor
        · rintro ⟨e, he⟩
          rw [hm] at he
          exact absurd he (by simp)
        · rintro ⟨d, hd, hne⟩
          injection hd with hd
          exact absurd hd.symm hne
    | jsonFile j =>
      have hm := mkdir_p_error_of_nondir fs p (FData.jsonFile j) hfs (by simp)
      constructor
      · intro fs1 hok
        rw [hm] at hok
        exact absurd hok (by simp)
      · exact ⟨fun _ => ⟨FData.jsonFile j, rfl, by simp⟩, fun _ => ⟨PyErr.eexist, hm⟩⟩
    | pklFile l =>
      have hm := mkdir_p_error_of_nondir fs p (FData.pklFile l) hfs (by simp)
      constructor
      · intro fs1 hok
        rw [hm] at hok
        exact absurd hok (by simp)
      · exact ⟨fun _ => ⟨FData.pklFile l, rfl, by simp⟩, fun _ => ⟨PyErr.eexist, hm⟩⟩
    | textFile t =>
      have hm := mkdir_p_error_of_nondir fs p (FData.textFile t) hfs (by simp)
      constructor
      · intro fs1 hok
        rw [hm] at hok
        exact absurd hok (by simp)
      · exact ⟨fun _ => ⟨FData.textFile t, rfl, by simp⟩, fun _ => ⟨PyErr.eexist, hm⟩⟩

theorem mkdir_p_idempotent_witness :
    mkdir_p [("d", FData.dir)] "d" = Except.ok [("d", FData.dir)]
    ∧ isDir [("d", FData.dir)] "d" = true
    ∧ ([("d", FData.dir)].filter (fun e => e.1 == "d")).length = 1 :=
  (mkdir_p_idempotent [] "d" (by decide)).1 [("d", FData.dir)] rfl

/-! ### Script-template decompositions -/

theorem strAppend_assoc (a b c : String) : a ++ b ++ c = a ++ (b ++ c) :=
  strExt (by simp [strData_append])

/-- `s` ends with `t`. -/
def hasSuffix (s t : String) : Prop := List.IsSuffix t.data s.data

instance (s t : String) : Decidable (hasSuffix s t) := by
  unfold hasSuffix; infer_instance

/-- The part both templates share, from the `--time` directive to the end. -/
def scriptTail (cmd jobname scratchpath : String) (nhours : Int) : String :=
  let logname := pathJoin "log" jobname
  "#SBATCH --time=" ++ toString nhours ++ ":00:00\n"
  ++ "#SBATCH --job-name=" ++ strTake jobname 16 ++ "\n"
  ++ "#SBATCH --output=" ++ scratchpath ++ "log/" ++ strTake jobname 16 ++ ".o\n"
  ++ "\n"
  ++ "cd " ++ scratchpath ++ "\n"
  ++ "pwd > " ++ logname ++ ".log\n"
  ++ "date >> " ++ logname ++ ".log\n"
  ++ "which python >> " ++ logname ++ ".log\n"
  ++ cmd ++ " >> " ++ logname ++ ".log 2>&1\n"
  ++ "\n"
  ++ "exit 0;\n"

theorem cpuScript_decomp (c j sc : String) (n p m nh : Int) :
    cpuScript c j sc n p m nh
      = ("#! /bin/bash\n" ++ "\n"
          ++ "#SBATCH --nodes=" ++ toString n ++ "\n"
          ++ "#SBATCH --ntasks-per-node=1\n"
          ++ "#SBATCH --cpus-per-task=" ++ toString p ++ "\n"
          ++ "#SBATCH --mem=" ++ toString m ++ "GB\n")
        ++ scriptTail c j sc nh := by
  simp only [cpuScript, scriptTail, strAppend_assoc]

theorem gpuScript_decomp (c j sc : String) (n p m nh : Int) :
    gpuScript c j sc n p m nh
      = ("#! /bin/bash\n" ++ "\n"
          ++ "#SBATCH --nodes=" ++ toString n ++ "\n"
          ++ "#SBATCH --ntasks-per-node=1\n"
          ++ "#SBATCH --cpus-per-task=" ++ toString p ++ "\n"
          ++ "#SBATCH --mem=" ++ toString m ++ "GB\n"
          ++ "#SBATCH --partition=gpu\n"
          ++ "#SBATCH --gres=gpu:1\n")
        ++ scriptTail c j sc nh := by
  simp only [gpuScript, scriptTail, strAppend_assoc]

theorem gpuScript_gres_decomp (c j sc : String) (n p m nh : Int) :
    gpuScript c j sc n p m nh
      = ("#! /bin/bash\n" ++ "\n"
          ++ "#SBATCH --nodes=" ++ toString n ++ "\n"
          ++ "#SBATCH --ntasks-per-node=1\n"
          ++ "#SBATCH --cpus-per-task=" ++ toString p ++ "\n"
          ++ "#SBATCH --mem=" ++ toString m ++ "GB\n"
          ++ "#SBATCH --partition=gpu\n")
        ++ "#SBATCH --gres=gpu:1\n"
        ++ scriptTail c j sc nh := by
  simp only [gpuScript, scriptTail, strAppend_assoc]

theorem scriptTail_has_jobname (c j sc : String) (nh : Int) :
    hasSubstr (scriptTail c j sc nh)
      ("#SBATCH --job-name=" ++ strTake j 16 ++ "\n") :=
  hasSubstr_of_eq _
    ("#SBATCH --time=" ++ toString nh ++ ":00:00\n")
    _
    ("#SBATCH --output=" ++ sc ++ "log/" ++ strTake j 16 ++ ".o\n"
      ++ "\n"
      ++ "cd " ++ sc ++ "\n"
      ++ "pwd > " ++ pathJoin "log" j ++ ".log\n"
      ++ "date >> " ++ pathJoin "log" j ++ ".log\n"
      ++ "which python >> " ++ pathJoin "log" j ++ ".log\n"
      ++ c ++ " >> " ++ pathJoin "log" j ++ ".log 2>&1\n"
      ++ "\n"
      ++ "exit 0;\n")
    (by simp only [scriptTail, strAppend_assoc])

theorem scriptTail_has_output (c j sc : String) (nh : Int) :
    hasSubstr (scriptTail c j sc nh)
      ("#SBATCH --output=" ++ sc ++ "log/" ++ strTake j 16 ++ ".o\n") :=
  hasSubstr_of_eq _
    ("#SBATCH --time=" ++ toString nh ++ ":00:00\n"
      ++ "#SBATCH --job-name=" ++ strTake j 16 ++ "\n")
    _
    ("\n"
      ++ "cd " ++ sc ++ "\n"
      ++ "pwd > " ++ pathJoin "log" j ++ ".log\n"
      ++ "date >> " ++ pathJoin "log" j ++ ".log\n"
      ++ "which python >> " ++ pathJoin "log" j ++ ".log\n"
      ++ c ++ " >> " ++ pathJoin "log" j ++ ".log 2>&1\n"
      ++ "\n"
      ++ "exit 0;\n")
    (by simp only [scriptTail, strAppend_assoc])

theorem scriptTail_has_pwd (c j sc : String) (nh : Int) :
    hasSubstr (scriptTail c j sc nh)
      ("pwd > " ++ pathJoin "log" j ++ ".log\n") :=
  hasSubstr_of_eq _
    ("#SBATCH --time=" ++ toString nh ++ ":00:00\n"
      ++ "#SBATCH --job-name=" ++ strTake j 16 ++ "\n"
      ++ "#SBATCH --output=" ++ sc ++ "log/" ++ strTake j 16 ++ ".o\n"
      ++ "\n"
      ++ "cd " ++ sc ++ "\n")
    _
    ("date >> " ++ pathJoin "log" j ++ ".log\n"
      ++ "which python >> " ++ pathJoin "log" j ++ ".log\n"
      ++ c ++ " >> " ++ pathJoin "log" j ++ ".log 2>&1\n"
      ++ "\n"
      ++ "exit 0;\n")
    (by simp only [scriptTail, strAppend_assoc])

theorem scriptTail_has_date (c j sc : String) (nh : Int) :
    hasSubstr (scriptTail c j sc nh)
      ("date >> " ++ pathJoin "log" j ++ ".log\n") :=
  hasSubstr_of_eq _
    ("#SBATCH --time=" ++ toString nh ++ ":00:00\n"
      ++ "#SBATCH --job-name=" ++ strTake j 16 ++ "\n"
      ++ "#SBATCH --output=" ++ sc ++ "log/" ++ strTake j 16 ++ ".o\n"
      ++ "\n"
      ++ "cd " ++ sc ++ "\n"
      ++ "pwd > " ++ pathJoin "log" j ++ ".log\n")
    _
    ("which python >> " ++ pathJoin "log" j ++ ".log\n"
      ++ c ++ " >> " ++ pathJoin "log" j ++ ".log 2>&1\n"
      ++ "\n"
      ++ "exit 0;\n")
    (by simp only [scriptTail, strAppend_assoc])

theorem scriptTail_has_which (c j sc : String) (nh : Int) :
    hasSubstr (scriptTail c j sc nh)
      ("which python >> " ++ pathJoin "log" j ++ ".log\n") :=
  hasSubstr_of_eq _
    ("#SBATCH --time=" ++ toString nh ++ ":00:00\n"
      ++ "#SBATCH --job-name=" ++ strTake j 16 ++ "\n"
      ++ "#SBATCH --output=" ++ sc ++ "log/" ++ strTake j 16 ++ ".o\n"
      ++ "\n"
      ++ "cd " ++ sc ++ "\n"
      ++ "pwd > " ++ pathJoin "log" j ++ ".log\n"
      ++ "date >> " ++ pathJoin "log" j ++ ".log\n")
    _
    (c ++ " >> " ++ pathJoin "log" j ++ ".log 2>&1\n"
      ++ "\n"
      ++ "exit 0;\n")
    (by simp only [scriptTail, strAppend_assoc])

theorem scriptTail_has_cmd (c j sc : String) (nh : Int) :
    hasSubstr (scriptTail c j sc nh)
      (c ++ " >> " ++ pathJoin "log" j ++ ".log 2>&1\n") :=
  hasSubstr_of_eq _
    ("#SBATCH --time=" ++ toString nh ++ ":00:00\n"
      ++ "#SBATCH --job-name=" ++ strTake j 16 ++ "\n"
      ++ "#SBATCH --output=" ++ sc ++ "log/" ++ strTake j 16 ++ ".o\n"
      ++ "\n"
      ++ "cd " ++ sc ++ "\n"
      ++ "pwd > " ++ pathJoin "log" j ++ ".log\n"
      ++ "date >> " ++ pathJoin "log" j ++ ".log\n"
      ++ "which python >> " ++ pathJoin "log" j ++ ".log\n")
    _
    ("\n" ++ "exit 0;\n")
    (by simp only [scriptTail, strAppend_assoc])

/-- Anything inside the common tail is inside the script, whichever
template is selected. -/
theorem scriptContent_has_of_tail (c j sc : String) (n p g m nh : Int)
    (sub : String) (h : hasSubstr (scriptTail c j sc nh) sub) :
    hasSubstr (scriptContent c j sc n p g m nh) sub := by
  unfold scriptContent
  by_cases hg : g = 0
  · rw [if_pos hg, cpuScript_decomp]
    exact hasSubstr_append_left _ h
  · rw [if_neg hg, gpuScript_decomp]
    exact hasSubstr_append_left _ h

theorem fsWrite_ok_inv (fs : FS) (p : String) (d : FData) (fs1 : FS)
    (h : fsWrite fs p d = Except.ok fs1) : fs1 = fsUpdate fs p d := by
  unfold fsWrite at h
  cases hl : fsLookup fs p with
  | none =>
    rw [hl] at h
    injection h with h
    exact h.symm
  | some x =>
    cases x <;> rw [hl] at h <;>
      first
      | (injection h with h; exact h.symm)
      | simp at h

/-- Successful `write_jobfile`: the returned path is
`<sbatchpath>/<jobname>.s` and the file there holds the rendered script. -/
theorem write_jobfile_ok (fs : FS) (cmd jobname sbatchpath scratchpath : String)
    (nodes ppn gpus mem nhours : Int) (fs1 : FS) (path : String)
    (h : write_jobfile fs cmd jobname sbatchpath scratchpath nodes ppn gpus mem nhours
          = Except.ok (fs1, path)) :
    path = pathJoin sbatchpath (jobname ++ ".s")
    ∧ fsLookup fs1 path
        = some (FData.textFile
            (scriptContent cmd jobname scratchpath nodes ppn gpus mem nhours)) := by
  unfold write_jobfile at h
  cases hmk : mkdir_p fs sbatchpath with
  | error e =>
    rw [hmk] at h
    simp at h
  | ok fs2 =>
    rw [hmk] at h
    dsimp only at h
    cases hw : fsWrite fs2 (pathJoin sbatchpath (jobname ++ ".s"))
        (FData.textFile (scriptContent cmd jobname scratchpath nodes ppn gpus mem nhours)) with
    | error e =>
      rw [hw] at h
      simp at h
    | ok fs3 =>
      rw [hw] at h
      simp only [Except.ok.injEq, Prod.mk.injEq] at h
      obtain ⟨h1, h2⟩ := h
      subst h1
      subst h2
      refine ⟨rfl, ?_⟩
      rw [fsWrite_ok_inv _ _ _ _ hw]
      exact fsLookup_fsUpdate_self _ _ _

/-! ### Claim C4: truncation in directives, full name in the path -/

/-- C4: for a job name longer than 16 characters the generated script
embeds the name truncated to its first 16 characters in the `--job-name`
and `--output` directives, while the path `write_jobfile` returns uses the
full untruncated name with extension `.s` under the script directory. -/
theorem write_jobfile_truncates (cmd jobname sbatchpath scratchpath : String)
    (nodes ppn gpus mem nhours : Int) (hlen : 16 < jobname.length) :
    strTake jobname 16 ≠ jobname
    ∧ (strTake jobname 16).length = 16
    ∧ hasSubstr (scriptContent cmd jobname scratchpath nodes ppn gpus mem nhours)
        ("#SBATCH --job-name=" ++ strTake jobname 16 ++ "\n")
    ∧ hasSubstr (scriptContent cmd jobname scratchpath nodes ppn gpus mem nhours)
        ("#SBATCH --output=" ++ scratchpath ++ "log/" ++ strTake jobname 16 ++ ".o\n")
    ∧ ∀ fs fs1 path,
        write_jobfile fs cmd jobname sbatchpath scratchpath nodes ppn gpus mem nhours
          = Except.ok (fs1, path) →
        path = pathJoin sbatchpath (jobname ++ ".s")
        ∧ fsLookup fs1 path
            = some (FData.textFile
                (scriptContent cmd jobname scratchpath nodes ppn gpus mem nhours)) := by
  refine ⟨?_, ?_, ?_, ?_, ?_⟩
  · intro heq
    have hdata := congrArg String.data heq
    simp only [strTake] at hdata
    have hL := congrArg List.length hdata
    rw [List.length_take] at hL
    have h2 : jobname.data.length ≤ 16 := by omega
    have h3 : jobname.length ≤ 16 := h2
    omega
  · have h2 : (strTake jobname 16).length = min 16 jobname.length :=
      List.length_take 16 jobname.data
    omega
  · exact scriptContent_has_of_tail _ _ _ _ _ _ _ _ _
      (scriptTail_has_jobname cmd jobname scratchpath nhours)
  · exact scriptContent_has_of_tail _ _ _ _ _ _ _ _ _
      (scriptTail_has_output cmd jobname scratchpath nhours)
  · intro fs fs1 path h
    exact write_jobfile_ok fs cmd jobname sbatchpath scratchpath
      nodes ppn gpus mem nhours fs1 path h

theorem write_jobfile_truncates_witness :
    strTake "abcdefghijklmnopq" 16 ≠ "abcdefghijklmnopq"
    ∧ hasSubstr (scriptContent "echo hi" "abcdefghijklmnopq" "/sc/" 1 1 0 16 12)
        ("#SBATCH --job-name=" ++ strTake "abcdefghijklmnopq" 16 ++ "\n") := by
  have h := write_jobfile_truncates "echo hi" "abcdefghijklmnopq" "sb" "/sc/"
    1 1 0 16 12 (by decide)
  exact ⟨h.1, h.2.2.1⟩

/-! ### Claim C5 (corrected): the body logs to the full-name log file -/

/-- C5 fails as stated: with the 17-character job name
`abcdefghijklmnopq`, the script body appends to
`log/abcdefghijklmnopq.log` (full name); no file named after the
truncated name `log/abcdefghijklmnop.log` appears anywhere in the
script. -/
theorem script_body_log_truncated_cex :
    hasSubstr (scriptContent "echo hi" "abcdefghijklmnopq" "/scratch/" 1 1 0 16 12)
      ("date >> " ++ pathJoin "log" "abcdefghijklmnopq" ++ ".log\n")
    ∧ ¬ hasSubstr (scriptContent "echo hi" "abcdefghijklmnopq" "/scratch/" 1 1 0 16 12)
      ("log/" ++ strTake "abcdefghijklmnopq" 16 ++ ".log") :=
  ⟨by decide, by decide⟩

/-- C5 (amended): in the script body the log file receiving the
timestamp, the interpreter probe and the command's combined output is
named after the full, untruncated job name (`log/<jobname>.log`); only
the scheduler directives use the truncated name. -/
theorem script_body_log_full_name (cmd jobname scratchpath : String)
    (nodes ppn gpus mem nhours : Int) :
    hasSubstr (scriptContent cmd jobname scratchpath nodes ppn gpus mem nhours)
      ("pwd > " ++ pathJoin "log" jobname ++ ".log\n")
    ∧ hasSubstr (scriptContent cmd jobname scratchpath nodes ppn gpus mem nhours)
      ("date >> " ++ pathJoin "log" jobname ++ ".log\n")
    ∧ hasSubstr (scriptContent cmd jobname scratchpath nodes ppn gpus mem nhours)
      ("which python >> " ++ pathJoin "log" jobname ++ ".log\n")
    ∧ hasSubstr (scriptContent cmd jobname scratchpath nodes ppn gpus mem nhours)
      (cmd ++ " >> " ++ pathJoin "log" jobname ++ ".log 2>&1\n") :=
  ⟨scriptContent_has_of_tail _ _ _ _ _ _ _ _ _
      (scriptTail_has_pwd cmd jobname scratchpath nhours),
   scriptContent_has_of_tail _ _ _ _ _ _ _ _ _
      (scriptTail_has_date cmd jobname scratchpath nhours),
   scriptContent_has_of_tail _ _ _ _ _ _ _ _ _
      (scriptTail_has_which cmd jobname scratchpath nhours),
   scriptContent_has_of_tail _ _ _ _ _ _ _ _ _
      (scriptTail_has_cmd cmd jobname scratchpath nhours)⟩

/-! ### Claim C6: the concrete CPU example -/

/-- C6: `write_jobfile` with command `echo hi`, job name `test_job`,
nodes=1, ppn=2, gpus=0, mem=8, nhours=1 writes
`<sbatchpath>/test_job.s` containing `--cpus-per-task=2`, `--mem=8GB`,
`--time=1:00:00`, no `--gres` line, ending in `exit 0;`. -/
theorem write_jobfile_cpu_example :
    write_jobfile [] "echo hi" "test_job" "sbatch" "/scratch/" 1 2 0 8 1
      = Except.ok
          ([("sbatch", FData.dir),
            ("sbatch/test_job.s",
             FData.textFile (cpuScript "echo hi" "test_job" "/scratch/" 1 2 8 1))],
           "sbatch/test_job.s")
    ∧ hasSubstr (cpuScript "echo hi" "test_job" "/scratch/" 1 2 8 1) "--cpus-per-task=2\n"
    ∧ hasSubstr (cpuScript "echo hi" "test_job" "/scratch/" 1 2 8 1) "--mem=8GB\n"
    ∧ hasSubstr (cpuScript "echo hi" "test_job" "/scratch/" 1 2 8 1) "--time=1:00:00\n"
    ∧ ¬ hasSubstr (cpuScript "echo hi" "test_job" "/scratch/" 1 2 8 1) "--gres"
    ∧ hasSuffix (cpuScript "echo hi" "test_job" "/scratch/" 1 2 8 1) "exit 0;\n" :=
  ⟨rfl, by decide, by decide, by decide, by decide, by decide⟩

/-! ### Claim C7: template dispatch on the GPU count -/

/-- C7: `write_jobfile` renders exactly one of two templates depending on
whether `gpus` is zero: the CPU template (no `--gres`, no `--partition`)
for `gpus=0`, the GPU template (with `--partition=gpu` and
`--gres=gpu:1`) otherwise. -/
theorem write_jobfile_gpu_dispatch :
    (∀ cmd jobname scratchpath : String, ∀ nodes ppn mem nhours : Int,
      scriptContent cmd jobname scratchpath nodes ppn 0 mem nhours
        = cpuScript cmd jobname scratchpath nodes ppn mem nhours)
    ∧ (∀ cmd jobname scratchpath : String, ∀ nodes ppn gpus mem nhours : Int,
        gpus ≠ 0 →
        scriptContent cmd jobname scratchpath nodes ppn gpus mem nhours
          = gpuScript cmd jobname scratchpath nodes ppn mem nhours)
    ∧ ¬ hasSubstr (scriptContent "echo hi" "test_job" "/scratch/" 1 2 0 8 1) "--gres"
    ∧ ¬ hasSubstr (scriptContent "echo hi" "test_job" "/scratch/" 1 2 0 8 1) "--partition"
    ∧ hasSubstr (scriptContent "echo hi" "test_job" "/scratch/" 1 2 1 8 1)
        "#SBATCH --partition=gpu\n"
    ∧ hasSubstr (scriptContent "echo hi" "test_job" "/scratch/" 1 2 1 8 1)
        "#SBATCH --gres=gpu:1\n" :=
  ⟨fun _ _ _ _ _ _ _ => by simp [scriptContent],
   fun _ _ _ _ _ _ _ _ hg => by simp [scriptContent, hg],
   by decide, by decide, by decide, by decide⟩

theorem write_jobfile_gpu_dispatch_witness :
    scriptContent "a" "b" "c" 1 1 0 16 12 = cpuScript "a" "b" "c" 1 1 16 12
    ∧ scriptContent "a" "b" "c" 1 1 2 16 12 = gpuScript "a" "b" "c" 1 1 16 12 :=
  ⟨write_jobfile_gpu_dispatch.1 "a" "b" "c" 1 1 16 12,
   write_jobfile_gpu_dispatch.2.1 "a" "b" "c" 1 1 2 16 12 (by decide)⟩

/-! ### Claim C10: the `--gres` directive is fixed at `gpu:1` -/

/-- C10: for any nonzero `gpus` the script contains the fixed
`--gres=gpu:1` directive, and the requested count is never interpolated:
the rendered script does not depend on the nonzero value of `gpus`. -/
theorem write_jobfile_gres_fixed (cmd jobname scratchpath : String)
    (nodes ppn gpus mem nhours : Int) (hg : gpus ≠ 0) :
    hasSubstr (scriptContent cmd jobname scratchpath nodes ppn gpus mem nhours)
      "#SBATCH --gres=gpu:1\n"
    ∧ ∀ gpus2 : Int, gpus2 ≠ 0 →
        scriptContent cmd jobname scratchpath nodes ppn gpus mem nhours
          = scriptContent cmd jobname scratchpath nodes ppn gpus2 mem nhours := by
  constructor
  · unfold scriptContent
    rw [if_neg hg, gpuScript_gres_decomp]
    exact hasSubstr_of_eq _ _ _ _ rfl
  · intro gpus2 hg2
    unfold scriptContent
    rw [if_neg hg, if_neg hg2]

theorem write_jobfile_gres_fixed_witness :
    hasSubstr (scriptContent "echo hi" "test_job" "/sc/" 1 1 2 16 12)
      "#SBATCH --gres=gpu:1\n"
    ∧ scriptContent "echo hi" "test_job" "/sc/" 1 1 2 16 12
        = scriptContent "echo hi" "test_job" "/sc/" 1 1 1 16 12 := by
  have h := write_jobfile_gres_fixed "echo hi" "test_job" "/sc/" 1 1 2 16 12 (by decide)
  exact ⟨h.1, h.2 1 (by decide)⟩

/-! ### Claim C1: save/load round-trip -/

/-- C1: for a hyperparameter dict with a numeric `'seed'` field, a
generator entry `'rng'`, and otherwise JSON-serializable values,
`save_hparams` followed by `load_hparams` on the same directory yields a
dict agreeing with the original on every key other than `'rng'`, plus a
generator handle freshly seeded at `seed + 1000`. -/
theorem save_load_roundtrip (h : Heap) (r : Nat) (fs : FS) (dir : String)
    (s : Int) (rv : HVal)
    (hnodup : ((h.get r).map Prod.fst).Nodup)
    (hrng : dget (h.get r) "rng" = some rv)
    (hseed : dget (h.get r) "seed" = some (HVal.json (JVal.jnum s)))
    (hser : ∀ kv ∈ h.get r, kv.1 ≠ "rng" → ∃ j, kv.2 = HVal.json j)
    (hdir : fsLookup fs (pathJoin dir "hparams.json") ≠ some FData.dir) :
    ∃ fs1 m2, (save_hparams h r fs dir).2 = Except.ok fs1
      ∧ load_hparams fs1 dir = Except.ok (some m2)
      ∧ (∀ k, k ≠ "rng" → dget m2 k = dget (h.get r) k)
      ∧ dget m2 "rng" = some (HVal.rng (s + 1000)) := by
  obtain ⟨rest, hpop⟩ := dpop_of_dget (h.get r) "rng" rv hrng
  obtain ⟨d1, d2, hm_eq, hrest_eq, hd1_ne⟩ :=
    dpop_eq_some (h.get r) "rng" rv rest hpop
  have hrng_notin_d2 : "rng" ∉ d2.map Prod.fst := by
    have hnodup2 := hnodup
    rw [hm_eq, List.map_append, List.map_cons] at hnodup2
    exact (List.nodup_cons.mp (List.nodup_append.mp hnodup2).2.1).1
  have hrest_mem : ∀ kv, kv ∈ rest → kv ∈ h.get r := by
    intro kv hkv
    rw [hrest_eq] at hkv
    rw [hm_eq]
    rcases List.mem_append.mp hkv with h1 | h2
    · exact List.mem_append.mpr (Or.inl h1)
    · exact List.mem_append.mpr (Or.inr (List.mem_cons_of_mem _ h2))
  have hrest_ne : ∀ kv, kv ∈ rest → kv.1 ≠ "rng" := by
    intro kv hkv
    rw [hrest_eq] at hkv
    rcases List.mem_append.mp hkv with h1 | h2
    · exact hd1_ne kv h1
    · intro heq
      have hm2 := List.mem_map_of_mem Prod.fst h2
      rw [heq] at hm2
      exact hrng_notin_d2 hm2
  obtain ⟨js, hjs⟩ := jdump_total rest
    (fun kv hkv => hser kv (hrest_mem kv hkv) (hrest_ne kv hkv))
  have hjload : jload js = rest := jload_jdump rest js hjs
  have hwrite : fsWrite fs (pathJoin dir "hparams.json") (FData.jsonFile js)
      = Except.ok (fsUpdate fs (pathJoin dir "hparams.json") (FData.jsonFile js)) :=
    fsWrite_ok fs (pathJoin dir "hparams.json") (FData.jsonFile js) hdir
  have hsave : (save_hparams h r fs dir).2
      = Except.ok (fsUpdate fs (pathJoin dir "hparams.json") (FData.jsonFile js)) := by
    simp only [save_hparams, Heap.get_alloc_new, hpop, Heap.get_set_alloc, hjs, hwrite]
  have hlk : fsLookup
      (fsUpdate fs (pathJoin dir "hparams.json") (FData.jsonFile js))
      (pathJoin dir "hparams.json") = some (FData.jsonFile js) :=
    fsLookup_fsUpdate_self fs (pathJoin dir "hparams.json") (FData.jsonFile js)
  have hisf : isFile
      (fsUpdate fs (pathJoin dir "hparams.json") (FData.jsonFile js))
      (pathJoin dir "hparams.json") = true := by
    simp [isFile, hlk]
  have hseed_rest : dget rest "seed" = some (HVal.json (JVal.jnum s)) := by
    rw [dget_dpop_ne (h.get r) "rng" rv rest hpop "seed" (by decide)]
    exact hseed
  have hload : load_hparams
      (fsUpdate fs (pathJoin dir "hparams.json") (FData.jsonFile js)) dir
      = Except.ok (some (dset rest "rng" (HVal.rng (s + 1000)))) := by
    simp [load_hparams, hisf, hlk, hjload, hseed_rest]
  refine ⟨fsUpdate fs (pathJoin dir "hparams.json") (FData.jsonFile js),
    dset rest "rng" (HVal.rng (s + 1000)), hsave, hload, ?_, ?_⟩
  · intro k hk
    rw [dget_dset_ne rest "rng" k (HVal.rng (s + 1000)) hk]
    exact dget_dpop_ne (h.get r) "rng" rv rest hpop k hk
  · exact dget_dset_self rest "rng" (HVal.rng (s + 1000))

theorem save_load_roundtrip_witness :
    ∃ fs1 m2,
      (save_hparams ⟨[[("seed", HVal.json (JVal.jnum 3)), ("rng", HVal.rng 3)]]⟩
          0 [] "sd").2 = Except.ok fs1
      ∧ load_hparams fs1 "sd" = Except.ok (some m2)
      ∧ (∀ k, k ≠ "rng" →
          dget m2 k
            = dget ((⟨[[("seed", HVal.json (JVal.jnum 3)), ("rng", HVal.rng 3)]]⟩ : Heap).get 0) k)
      ∧ dget m2 "rng" = some (HVal.rng (3 + 1000)) := by
  apply save_load_roundtrip
    ⟨[[("seed", HVal.json (JVal.jnum 3)), ("rng", HVal.rng 3)]]⟩ 0 [] "sd" 3 (HVal.rng 3)
  · decide
  · rfl
  · rfl
  · intro kv hkv hne
    have hkv2 : kv ∈ [("seed", HVal.json (JVal.jnum 3)), ("rng", HVal.rng 3)] := hkv
    simp only [List.mem_cons, List.not_mem_nil, or_false] at hkv2
    rcases hkv2 with rfl | rfl
    · exact ⟨JVal.jnum 3, rfl⟩
    · exact absurd rfl hne
  · decide

end Multitask
